import Mathlib

/-
Verification of the numerical core of the repository: the Lorenz explicit-Euler
trajectory generators duplicated across scene4.py, scene5.py and scene6.py, the
closed-form damped-pendulum kinematics of scene7.py, and the bounded trailing
path buffers of scene7.py.

The Python code computes with IEEE doubles; the embedding models the arithmetic
over an arbitrary commutative ring (instantiated at the rationals for concrete
evaluations and at the reals for the analytic pendulum facts), which captures the
exact-arithmetic reading of the spec.
-/

/-- The loop of `LorenzSystem.get_lorenz_points` (src/project/scene4.py, lines 8-15):
each iteration computes the derivative triple at the current state, advances the
state by one explicit-Euler step of size `dt`, and appends the post-step state to
the output list.  The recursion index is the remaining number of iterations. -/
def LorenzSystem.lorenzGo {K : Type} [CommRing K] (sigma rho beta dt : K) :
    K × K × K → ℕ → List (K × K × K)
  | _, 0 => []
  | (x, y, z), n + 1 =>
    let dx := sigma * (y - x)
    let dy := x * (rho - z) - y
    let dz := x * y - beta * z
    let x' := x + dx * dt
    let y' := y + dy * dt
    let z' := z + dz * dt
    (x', y', z') :: LorenzSystem.lorenzGo sigma rho beta dt (x', y', z') n

/-- `LorenzSystem.get_lorenz_points` (src/project/scene4.py, lines 5-16): starts from
the state unpacked from `xyz` and returns the list of the `num_points` post-step
states, in order of production. -/
def LorenzSystem.get_lorenz_points {K : Type} [CommRing K] (sigma rho beta dt : K)
    (xyz : K × K × K) (num_points : ℕ) : List (K × K × K) :=
  LorenzSystem.lorenzGo sigma rho beta dt xyz num_points

/-- The explicit-Euler step map exactly as worded in the spec and in claim C1:
`(x, y, z)` goes to `(x + sigma*(y-x)*dt, y + (x*(rho-z)-y)*dt, z + (x*y - beta*z)*dt)`.
Stated separately from the loop so that the loop can be compared against it. -/
def spec_euler_step {K : Type} [CommRing K] (sigma rho beta dt : K)
    (v : K × K × K) : K × K × K :=
  (v.1 + sigma * (v.2.1 - v.1) * dt,
   v.2.1 + (v.1 * (rho - v.2.2) - v.2.1) * dt,
   v.2.2 + (v.1 * v.2.1 - beta * v.2.2) * dt)

/-- The derivative triple `(dx, dy, dz)` computed by every copy of the integration
loop at a state `(x, y, z)` (src/project/scene4.py lines 9-11, scene5.py lines 9-11,
scene6.py lines 19-21). -/
def lorenz_deriv {K : Type} [CommRing K] (sigma rho beta : K)
    (v : K × K × K) : K × K × K :=
  (sigma * (v.2.1 - v.1),
   v.1 * (rho - v.2.2) - v.2.1,
   v.1 * v.2.1 - beta * v.2.2)

/-- The loop of `ComprehensiveChaosSystem.get_lorenz_points` (src/project/scene5.py,
lines 6-17).  The Python function returns `points, [dx, dy, dz]` after the loop,
where `dx, dy, dz` hold whatever the final iteration assigned; when the loop runs
zero times those names are unbound and the `return` raises `NameError`, modelled
here by threading the last assigned derivative triple as an `Option` that starts
out `none`. -/
def ComprehensiveChaosSystem.lorenzGo {K : Type} [CommRing K] (sigma rho beta dt : K) :
    K × K × K → Option (K × K × K) → ℕ → List (K × K × K) × Option (K × K × K)
  | _, lastDeriv, 0 => ([], lastDeriv)
  | (x, y, z), _, n + 1 =>
    let dx := sigma * (y - x)
    let dy := x * (rho - z) - y
    let dz := x * y - beta * z
    let x' := x + dx * dt
    let y' := y + dy * dt
    let z' := z + dz * dt
    let rest := ComprehensiveChaosSystem.lorenzGo sigma rho beta dt
      (x', y', z') (some (dx, dy, dz)) n
    ((x', y', z') :: rest.1, rest.2)

/-- `ComprehensiveChaosSystem.get_lorenz_points` (src/project/scene5.py, lines 6-17):
same integration loop as scene4, returning the point list together with the final
derivative triple (or `none` for zero iterations, when the Python code raises). -/
def ComprehensiveChaosSystem.get_lorenz_points {K : Type} [CommRing K]
    (sigma rho beta dt : K) (xyz : K × K × K) (num_points : ℕ) :
    List (K × K × K) × Option (K × K × K) :=
  ComprehensiveChaosSystem.lorenzGo sigma rho beta dt xyz none num_points

/-- The loop of `AdvancedChaosSystem.get_lorenz_points` (src/project/scene6.py,
lines 14-27): each iteration appends the derivative triple computed at the
pre-step state to `derivatives` and the post-step state to `points`. -/
def AdvancedChaosSystem.lorenzGo {K : Type} [CommRing K] (sigma rho beta dt : K) :
    K × K × K → ℕ → List (K × K × K) × List (K × K × K)
  | _, 0 => ([], [])
  | (x, y, z), n + 1 =>
    let dx := sigma * (y - x)
    let dy := x * (rho - z) - y
    let dz := x * y - beta * z
    let x' := x + dx * dt
    let y' := y + dy * dt
    let z' := z + dz * dt
    let rest := AdvancedChaosSystem.lorenzGo sigma rho beta dt (x', y', z') n
    ((x', y', z') :: rest.1, (dx, dy, dz) :: rest.2)

/-- `AdvancedChaosSystem.get_lorenz_points` (src/project/scene6.py, lines 14-27):
same integration loop, returning the point list together with the full list of
per-iteration derivative triples. -/
def AdvancedChaosSystem.get_lorenz_points {K : Type} [CommRing K]
    (sigma rho beta dt : K) (xyz : K × K × K) (num_points : ℕ) :
    List (K × K × K) × List (K × K × K) :=
  AdvancedChaosSystem.lorenzGo sigma rho beta dt xyz num_points

/-- The pendulum angle computed each frame by `update_pendulum`
(src/project/scene7.py, line 81): `theta = theta_0 * exp(-damping*t) * cos(omega*t)`. -/
noncomputable def update_pendulum_theta (t theta_0 damping omega : ℝ) : ℝ :=
  theta_0 * Real.exp (-damping * t) * Real.cos (omega * t)

/-- The pendulum angular velocity computed each frame by `update_pendulum`
(src/project/scene7.py, line 82):
`theta_dot = theta_0 * exp(-damping*t) * (-damping*cos(omega*t) - omega*sin(omega*t))`. -/
noncomputable def update_pendulum_theta_dot (t theta_0 damping omega : ℝ) : ℝ :=
  theta_0 * Real.exp (-damping * t) *
    (-damping * Real.cos (omega * t) - omega * Real.sin (omega * t))

/-- `path.add_points_as_corners([p])` as used in src/project/scene7.py lines 93 and
107: appends the new corner points at the end of the stored point list. -/
def VMobject.add_points_as_corners {A : Type} (points new_points : List A) : List A :=
  points ++ new_points

/-- The truncation `if len(points) > 150: points = points[-150:]`
(src/project/scene7.py, lines 94-95 and 108-109): when the buffer exceeds 150
points, keep only the last 150. -/
def trail_truncate {A : Type} (points : List A) : List A :=
  if 150 < points.length then points.drop (points.length - 150) else points

/-- One frame's effect of `update_pendulum` on the trailing path buffer
(src/project/scene7.py, lines 93-95): append the current bob position, then
truncate to the 150 most recent points. -/
def path_update {A : Type} (points : List A) (p : A) : List A :=
  trail_truncate (VMobject.add_points_as_corners points [p])

/-- One frame's effect of `update_pendulum` on the phase-space trail buffer
(src/project/scene7.py, lines 107-109): same append-then-truncate policy as the
path buffer. -/
def phase_trail_update {A : Type} (points : List A) (p : A) : List A :=
  trail_truncate (VMobject.add_points_as_corners points [p])

/-- The variables `LorenzSystem.get_lorenz_points` can touch: the caller's
argument list `xyz`, the three local scalars `x, y, z` and the freshly allocated
output list `points` (src/project/scene4.py, lines 6-7). -/
structure LorenzFrame (K : Type) where
  xyz : List K
  x : K
  y : K
  z : K
  points : List (K × K × K)

/-- Function entry (src/project/scene4.py, lines 6-7): `points = []` and
`x, y, z = xyz`, which unpacks the argument and fails unless it has exactly
three elements.  The argument list itself is stored unmodified in the frame. -/
def lorenz_unpack {K : Type} (xyz : List K) : Option (LorenzFrame K) :=
  match xyz with
  | [x, y, z] => some { xyz := xyz, x := x, y := y, z := z, points := [] }
  | _ => none

/-- One iteration of the loop body (src/project/scene4.py, lines 9-15) acting on
the frame of local variables: only `x`, `y`, `z` and `points` are assigned. -/
def lorenz_loop_body {K : Type} [CommRing K] (sigma rho beta dt : K)
    (s : LorenzFrame K) : LorenzFrame K :=
  let dx := sigma * (s.y - s.x)
  let dy := s.x * (rho - s.z) - s.y
  let dz := s.x * s.y - beta * s.z
  let x' := s.x + dx * dt
  let y' := s.y + dy * dt
  let z' := s.z + dz * dt
  { s with x := x', y := y', z := z', points := s.points ++ [(x', y', z')] }

/-- The variables `AdvancedChaosSystem.get_lorenz_points` can touch: the caller's
argument list `xyz`, the three local scalars `x, y, z` and the two freshly
allocated output lists `points` and `derivatives` (src/project/scene6.py,
lines 15-17). -/
structure AdvancedFrame (K : Type) where
  xyz : List K
  x : K
  y : K
  z : K
  points : List (K × K × K)
  derivatives : List (K × K × K)

/-- Function entry of the scene6 variant (src/project/scene6.py, lines 15-17):
`points = []`, `derivatives = []` and `x, y, z = xyz`, which unpacks the argument
and fails unless it has exactly three elements.  The argument list itself is
stored unmodified in the frame. -/
def adv_lorenz_unpack {K : Type} (xyz : List K) : Option (AdvancedFrame K) :=
  match xyz with
  | [x, y, z] =>
    some { xyz := xyz, x := x, y := y, z := z, points := [], derivatives := [] }
  | _ => none

/-- One iteration of the scene6 loop body (src/project/scene6.py, lines 18-26)
acting on the frame of local variables: the derivative triple computed at the
pre-step state is appended to `derivatives`, the post-step state to `points`,
and only `x`, `y`, `z`, `points` and `derivatives` are assigned. -/
def adv_lorenz_loop_body {K : Type} [CommRing K] (sigma rho beta dt : K)
    (s : AdvancedFrame K) : AdvancedFrame K :=
  let dx := sigma * (s.y - s.x)
  let dy := s.x * (rho - s.z) - s.y
  let dz := s.x * s.y - beta * s.z
  let x' := s.x + dx * dt
  let y' := s.y + dy * dt
  let z' := s.z + dz * dt
  { s with
    x := x'
    y := y'
    z := z'
    points := s.points ++ [(x', y', z')]
    derivatives := s.derivatives ++ [(dx, dy, dz)] }

/-- Each entry of the scene4 integration loop output is an iterate of the
explicit-Euler step map: the loop started at `v` for `n` iterations produces
the list `[step v, step (step v), ...]` of length `n`. -/
theorem LorenzSystem.lorenzGo_eq_map {K : Type} [CommRing K] (sigma rho beta dt : K)
    (v : K × K × K) (n : ℕ) :
    LorenzSystem.lorenzGo sigma rho beta dt v n =
      (List.range n).map (fun i => (spec_euler_step sigma rho beta dt)^[i + 1] v) := by
  induction n generalizing v with
  | zero => rfl
  | succ n ih =>
    obtain ⟨x, y, z⟩ := v
    have h1 : LorenzSystem.lorenzGo sigma rho beta dt (x, y, z) (n + 1) =
        spec_euler_step sigma rho beta dt (x, y, z) ::
          LorenzSystem.lorenzGo sigma rho beta dt
            (spec_euler_step sigma rho beta dt (x, y, z)) n := rfl
    rw [h1, ih (spec_euler_step sigma rho beta dt (x, y, z)),
      List.range_succ_eq_map, List.map_cons, List.map_map]
    refine congrArg₂ List.cons rfl (List.map_congr_left fun i _ => ?_)
    exact (Function.iterate_succ_apply (spec_euler_step sigma rho beta dt) (i + 1) _).symm

/-- The scene4 loop emits exactly one point per iteration. -/
theorem LorenzSystem.lorenzGo_length {K : Type} [CommRing K] (sigma rho beta dt : K)
    (v : K × K × K) (n : ℕ) :
    (LorenzSystem.lorenzGo sigma rho beta dt v n).length = n := by
  rw [LorenzSystem.lorenzGo_eq_map]
  simp

/-- The point list returned by the scene5 variant coincides with the scene4 loop
output, whatever derivative accumulator the loop starts with. -/
theorem comp_lorenzGo_fst {K : Type} [CommRing K]
    (sigma rho beta dt : K) (v : K × K × K) (d : Option (K × K × K)) (n : ℕ) :
    (ComprehensiveChaosSystem.lorenzGo sigma rho beta dt v d n).1 =
      LorenzSystem.lorenzGo sigma rho beta dt v n := by
  induction n generalizing v d with
  | zero => rfl
  | succ n ih =>
    obtain ⟨x, y, z⟩ := v
    simp only [ComprehensiveChaosSystem.lorenzGo, LorenzSystem.lorenzGo]
    exact congrArg₂ List.cons rfl (ih _ _)

/-- After at least one iteration, the scene5 variant's second output is the
derivative triple computed at the state entering the final iteration. -/
theorem comp_lorenzGo_snd {K : Type} [CommRing K]
    (sigma rho beta dt : K) (v : K × K × K) (d : Option (K × K × K)) (n : ℕ) :
    (ComprehensiveChaosSystem.lorenzGo sigma rho beta dt v d (n + 1)).2 =
      some (lorenz_deriv sigma rho beta ((spec_euler_step sigma rho beta dt)^[n] v)) := by
  induction n generalizing v d with
  | zero => obtain ⟨x, y, z⟩ := v; rfl
  | succ m ih =>
    obtain ⟨x, y, z⟩ := v
    have h1 : (ComprehensiveChaosSystem.lorenzGo sigma rho beta dt (x, y, z) d (m + 2)).2 =
        (ComprehensiveChaosSystem.lorenzGo sigma rho beta dt
          (spec_euler_step sigma rho beta dt (x, y, z))
          (some (lorenz_deriv sigma rho beta (x, y, z))) (m + 1)).2 := rfl
    rw [h1, ih]
    rw [← Function.iterate_succ_apply]

/-- The point list returned by the scene6 variant coincides with the scene4 loop
output. -/
theorem adv_lorenzGo_fst {K : Type} [CommRing K]
    (sigma rho beta dt : K) (v : K × K × K) (n : ℕ) :
    (AdvancedChaosSystem.lorenzGo sigma rho beta dt v n).1 =
      LorenzSystem.lorenzGo sigma rho beta dt v n := by
  induction n generalizing v with
  | zero => rfl
  | succ n ih =>
    obtain ⟨x, y, z⟩ := v
    simp only [AdvancedChaosSystem.lorenzGo, LorenzSystem.lorenzGo]
    exact congrArg₂ List.cons rfl (ih _)

/-- The scene6 variant's second output is the full list of per-iteration
derivative triples: entry `i` is the derivative at the state entering
iteration `i`. -/
theorem adv_lorenzGo_snd {K : Type} [CommRing K]
    (sigma rho beta dt : K) (v : K × K × K) (n : ℕ) :
    (AdvancedChaosSystem.lorenzGo sigma rho beta dt v n).2 =
      (List.range n).map
        (fun i => lorenz_deriv sigma rho beta ((spec_euler_step sigma rho beta dt)^[i] v)) := by
  induction n generalizing v with
  | zero => rfl
  | succ n ih =>
    obtain ⟨x, y, z⟩ := v
    have h1 : (AdvancedChaosSystem.lorenzGo sigma rho beta dt (x, y, z) (n + 1)).2 =
        lorenz_deriv sigma rho beta (x, y, z) ::
          (AdvancedChaosSystem.lorenzGo sigma rho beta dt
            (spec_euler_step sigma rho beta dt (x, y, z)) n).2 := rfl
    rw [h1, ih (spec_euler_step sigma rho beta dt (x, y, z)),
      List.range_succ_eq_map, List.map_cons, List.map_map]
    refine congrArg₂ List.cons rfl (List.map_congr_left fun i _ => ?_)
    exact congrArg (lorenz_deriv sigma rho beta)
      (Function.iterate_succ_apply (spec_euler_step sigma rho beta dt) i _).symm

/-- The loop-body frame update never writes the `xyz` field. -/
theorem lorenz_loop_body_xyz {K : Type} [CommRing K] (sigma rho beta dt : K)
    (s : LorenzFrame K) : (lorenz_loop_body sigma rho beta dt s).xyz = s.xyz := rfl

/-- The scene6 loop-body frame update never writes the `xyz` field either. -/
theorem adv_lorenz_loop_body_xyz {K : Type} [CommRing K] (sigma rho beta dt : K)
    (s : AdvancedFrame K) :
    (adv_lorenz_loop_body sigma rho beta dt s).xyz = s.xyz := rfl

/-- Claim C1: for every initial state, parameters and `num_points >= 1`, entry 0
of `LorenzSystem.get_lorenz_points` equals one explicit-Euler step applied to the
initial state (the initial state itself is never emitted), and every entry `i`
with `1 <= i < num_points` equals one explicit-Euler step applied to entry
`i - 1`, the step map being the one written in the spec. -/
theorem c1_lorenz_points_euler_recurrence {K : Type} [CommRing K]
    (sigma rho beta dt : K) (xyz : K × K × K) (num_points : ℕ)
    (hn : 1 ≤ num_points) :
    (LorenzSystem.get_lorenz_points sigma rho beta dt xyz num_points)[0]? =
      some (spec_euler_step sigma rho beta dt xyz) ∧
    ∀ i, 1 ≤ i → i < num_points →
      ∃ prev,
        (LorenzSystem.get_lorenz_points sigma rho beta dt xyz num_points)[i - 1]? =
          some prev ∧
        (LorenzSystem.get_lorenz_points sigma rho beta dt xyz num_points)[i]? =
          some (spec_euler_step sigma rho beta dt prev) := by
  unfold LorenzSystem.get_lorenz_points
  rw [LorenzSystem.lorenzGo_eq_map]
  constructor
  · rw [List.getElem?_map, List.getElem?_range hn]
    rfl
  · intro i h1 hi
    refine ⟨(spec_euler_step sigma rho beta dt)^[i] xyz, ?_, ?_⟩
    · rw [List.getElem?_map, List.getElem?_range (by omega : i - 1 < num_points)]
      have hpred : i - 1 + 1 = i := by omega
      simp only [Option.map_some']
      rw [hpred]
    · rw [List.getElem?_map, List.getElem?_range hi]
      simp only [Option.map_some']
      rw [Function.iterate_succ_apply']

/-- Witness for C1 at concrete rational inputs. -/
theorem c1_witness :
    1 ≤ 2 ∧
    ((LorenzSystem.get_lorenz_points (10 : ℚ) 28 (8/3) (1/100) (1, 1, 1) 2)[0]? =
      some (spec_euler_step (10 : ℚ) 28 (8/3) (1/100) (1, 1, 1)) ∧
    ∀ i, 1 ≤ i → i < 2 →
      ∃ prev,
        (LorenzSystem.get_lorenz_points (10 : ℚ) 28 (8/3) (1/100) (1, 1, 1) 2)[i - 1]? =
          some prev ∧
        (LorenzSystem.get_lorenz_points (10 : ℚ) 28 (8/3) (1/100) (1, 1, 1) 2)[i]? =
          some (spec_euler_step (10 : ℚ) 28 (8/3) (1/100) prev)) :=
  ⟨by decide,
    c1_lorenz_points_euler_recurrence (10 : ℚ) 28 (8/3) (1/100) (1, 1, 1) 2 (by decide)⟩

/-- Claim C2: the point sequence returned by `LorenzSystem.get_lorenz_points` has
length exactly `num_points` for every non-negative integer `num_points`; in
particular for `num_points = 0` it is the empty list. -/
theorem c2_lorenz_points_length {K : Type} [CommRing K] (sigma rho beta dt : K)
    (xyz : K × K × K) (num_points : ℕ) :
    (LorenzSystem.get_lorenz_points sigma rho beta dt xyz num_points).length =
      num_points ∧
    LorenzSystem.get_lorenz_points sigma rho beta dt xyz 0 = [] :=
  ⟨LorenzSystem.lorenzGo_length sigma rho beta dt xyz num_points, rfl⟩

/-- Claim C3 counterexample: with `num_points = 1`, `dt = 1/100`, the default
Lorenz parameters and initial state `(1, 1, 1)`, the single returned point is
`(1, 63/50, 59/60)`; its third component `59/60 = 0.98333...` is not within
`1/1000` of the value `0.993333` that the claim gives as the approximate result,
so the claimed numerical evaluation is false. -/
theorem c3_single_step_counterexample :
    LorenzSystem.get_lorenz_points (10 : ℚ) 28 (8/3) (1/100) (1, 1, 1) 1 =
      [(1, 63/50, 59/60)] ∧
    ¬ |(59/60 : ℚ) - 993333/1000000| ≤ 1/1000 := by
  constructor
  · norm_num [LorenzSystem.get_lorenz_points, LorenzSystem.lorenzGo, Prod.ext_iff]
  · intro hle
    rw [abs_of_neg (by norm_num : (59/60 : ℚ) - 993333/1000000 < 0)] at hle
    norm_num at hle

/-- Claim C3 (amended): with `num_points = 1`, `dt = 1/100`, `sigma = 10`,
`rho = 28`, `beta = 8/3` and initial state `(1, 1, 1)`, the single returned point
equals `(1 + 0*0.01, 1 + 26*0.01, 1 + (1*1 - 8/3*1)*0.01)`, whose third component
is `59/60`, approximately `0.983333` (not `0.993333`). -/
theorem c3_single_step_amended :
    LorenzSystem.get_lorenz_points (10 : ℚ) 28 (8/3) (1/100) (1, 1, 1) 1 =
      [(1 + 0 * (1/100), 1 + 26 * (1/100), 1 + (1 * 1 - (8/3) * 1) * (1/100))] := by
  norm_num [LorenzSystem.get_lorenz_points, LorenzSystem.lorenzGo, Prod.ext_iff]

/-- Claim C5: the trajectory generator is a pure function of its arguments: two
invocations with identical inputs return identical output sequences. -/
theorem c5_deterministic {K : Type} [CommRing K]
    (sigma1 rho1 beta1 dt1 sigma2 rho2 beta2 dt2 : K)
    (xyz1 xyz2 : K × K × K) (n1 n2 : ℕ)
    (h : sigma1 = sigma2 ∧ rho1 = rho2 ∧ beta1 = beta2 ∧ dt1 = dt2 ∧
      xyz1 = xyz2 ∧ n1 = n2) :
    LorenzSystem.get_lorenz_points sigma1 rho1 beta1 dt1 xyz1 n1 =
      LorenzSystem.get_lorenz_points sigma2 rho2 beta2 dt2 xyz2 n2 := by
  obtain ⟨h1, h2, h3, h4, h5, h6⟩ := h
  rw [h1, h2, h3, h4, h5, h6]

/-- Witness for C5 at concrete rational inputs. -/
theorem c5_witness :
    ((10 : ℚ) = 10 ∧ (28 : ℚ) = 28 ∧ (8/3 : ℚ) = 8/3 ∧ (1/100 : ℚ) = 1/100 ∧
      ((1 : ℚ), (1 : ℚ), (1 : ℚ)) = ((1 : ℚ), (1 : ℚ), (1 : ℚ)) ∧ (5 : ℕ) = 5) ∧
    LorenzSystem.get_lorenz_points (10 : ℚ) 28 (8/3) (1/100) (1, 1, 1) 5 =
      LorenzSystem.get_lorenz_points (10 : ℚ) 28 (8/3) (1/100) (1, 1, 1) 5 :=
  ⟨⟨rfl, rfl, rfl, rfl, rfl, rfl⟩,
    c5_deterministic 10 28 (8/3) (1/100) 10 28 (8/3) (1/100) (1, 1, 1) (1, 1, 1) 5 5
      ⟨rfl, rfl, rfl, rfl, rfl, rfl⟩⟩

/-- Claim C4 counterexample: the scene6 variant does not return only the final
derivative triple.  With the default parameters, initial state `(1, 1, 1)` and
`num_points = 2`, its second output is a two-element list of derivative triples,
hence not `[d]` for any single triple `d`. -/
theorem c4_variants_counterexample :
    ¬ ∃ d : ℚ × ℚ × ℚ,
      (AdvancedChaosSystem.get_lorenz_points (10 : ℚ) 28 (8/3) (1/100) (1, 1, 1) 2).2 =
        [d] := by
  rintro ⟨d, hd⟩
  have h := congrArg List.length hd
  rw [AdvancedChaosSystem.get_lorenz_points, adv_lorenzGo_snd] at h
  simp at h

/-- Claim C4 (amended): for `num_points >= 1` both augmented variants return the
same point sequence as the scene4 integrator; the scene5 variant additionally
returns exactly the final derivative triple (the derivative at the state entering
the last iteration), while the scene6 variant returns the full list of
`num_points` per-iteration derivative triples, whose last element is that same
final derivative triple. -/
theorem c4_variants_amended {K : Type} [CommRing K] (sigma rho beta dt : K)
    (xyz : K × K × K) (num_points : ℕ) (hn : 1 ≤ num_points) :
    (ComprehensiveChaosSystem.get_lorenz_points sigma rho beta dt xyz num_points).1 =
      LorenzSystem.get_lorenz_points sigma rho beta dt xyz num_points ∧
    (ComprehensiveChaosSystem.get_lorenz_points sigma rho beta dt xyz num_points).2 =
      some (lorenz_deriv sigma rho beta
        ((spec_euler_step sigma rho beta dt)^[num_points - 1] xyz)) ∧
    (AdvancedChaosSystem.get_lorenz_points sigma rho beta dt xyz num_points).1 =
      LorenzSystem.get_lorenz_points sigma rho beta dt xyz num_points ∧
    (AdvancedChaosSystem.get_lorenz_points sigma rho beta dt xyz num_points).2.length =
      num_points ∧
    (AdvancedChaosSystem.get_lorenz_points sigma rho beta dt xyz num_points).2.getLast? =
      some (lorenz_deriv sigma rho beta
        ((spec_euler_step sigma rho beta dt)^[num_points - 1] xyz)) := by
  obtain ⟨m, rfl⟩ : ∃ m, num_points = m + 1 := ⟨num_points - 1, by omega⟩
  refine ⟨?_, ?_, ?_, ?_, ?_⟩
  · exact comp_lorenzGo_fst sigma rho beta dt xyz none (m + 1)
  · rw [ComprehensiveChaosSystem.get_lorenz_points,
      comp_lorenzGo_snd]
    simp
  · exact adv_lorenzGo_fst sigma rho beta dt xyz (m + 1)
  · rw [AdvancedChaosSystem.get_lorenz_points, adv_lorenzGo_snd]
    simp
  · rw [AdvancedChaosSystem.get_lorenz_points, adv_lorenzGo_snd,
      List.getLast?_eq_getElem?]
    simp [List.getElem?_range]

/-- Witness for C4 (amended) at concrete rational inputs. -/
theorem c4_witness :
    1 ≤ 1 ∧
    ((ComprehensiveChaosSystem.get_lorenz_points (10 : ℚ) 28 (8/3) (1/100) (1, 1, 1) 1).1 =
      LorenzSystem.get_lorenz_points (10 : ℚ) 28 (8/3) (1/100) (1, 1, 1) 1 ∧
    (ComprehensiveChaosSystem.get_lorenz_points (10 : ℚ) 28 (8/3) (1/100) (1, 1, 1) 1).2 =
      some (lorenz_deriv (10 : ℚ) 28 (8/3)
        ((spec_euler_step (10 : ℚ) 28 (8/3) (1/100))^[1 - 1] (1, 1, 1))) ∧
    (AdvancedChaosSystem.get_lorenz_points (10 : ℚ) 28 (8/3) (1/100) (1, 1, 1) 1).1 =
      LorenzSystem.get_lorenz_points (10 : ℚ) 28 (8/3) (1/100) (1, 1, 1) 1 ∧
    (AdvancedChaosSystem.get_lorenz_points (10 : ℚ) 28 (8/3) (1/100) (1, 1, 1) 1).2.length =
      1 ∧
    (AdvancedChaosSystem.get_lorenz_points (10 : ℚ) 28 (8/3) (1/100) (1, 1, 1) 1).2.getLast? =
      some (lorenz_deriv (10 : ℚ) 28 (8/3)
        ((spec_euler_step (10 : ℚ) 28 (8/3) (1/100))^[1 - 1] (1, 1, 1)))) :=
  ⟨by decide, c4_variants_amended (10 : ℚ) 28 (8/3) (1/100) (1, 1, 1) 1 (by decide)⟩

/-- Claim C7: at `t = 0` the per-frame pendulum kinematics give
`theta = theta_0` and `theta_dot = -damping * theta_0`. -/
theorem c7_pendulum_initial (theta_0 damping omega : ℝ) :
    update_pendulum_theta 0 theta_0 damping omega = theta_0 ∧
    update_pendulum_theta_dot 0 theta_0 damping omega = -damping * theta_0 := by
  constructor
  · simp [update_pendulum_theta]
  · simp [update_pendulum_theta_dot]
    ring

/-- Claim C8 counterexample: the envelope bound fails for a negative initial
angle.  At `theta_0 = -1`, `damping = 0`, `omega = 0`, `t = 0` the angle is `-1`
with absolute value `1`, while the claimed bound `theta_0 * exp(-damping*t)`
equals `-1`. -/
theorem c8_envelope_counterexample :
    ¬ |update_pendulum_theta 0 (-1) 0 0| ≤ (-1 : ℝ) * Real.exp (-(0 : ℝ) * 0) := by
  norm_num [update_pendulum_theta]

/-- Claim C8 (amended): for every nonnegative initial angle `theta_0` and every
`t >= 0`, the pendulum angle satisfies `|theta(t)| <= theta_0 * exp(-damping*t)`. -/
theorem c8_envelope_amended (t theta_0 damping omega : ℝ)
    (h0 : 0 ≤ theta_0) (ht : 0 ≤ t) :
    |update_pendulum_theta t theta_0 damping omega| ≤
      theta_0 * Real.exp (-damping * t) := by
  rw [update_pendulum_theta, abs_mul]
  have h1 : |theta_0 * Real.exp (-damping * t)| = theta_0 * Real.exp (-damping * t) := by
    rw [abs_mul, abs_of_nonneg h0, abs_of_pos (Real.exp_pos _)]
  calc |theta_0 * Real.exp (-damping * t)| * |Real.cos (omega * t)|
      ≤ |theta_0 * Real.exp (-damping * t)| * 1 :=
        mul_le_mul_of_nonneg_left (Real.abs_cos_le_one _) (abs_nonneg _)
    _ = theta_0 * Real.exp (-damping * t) := by rw [mul_one, h1]

/-- Witness for C8 (amended) at `t = 0`, `theta_0 = 1`, `damping = 0`, `omega = 0`. -/
theorem c8_witness :
    (0 : ℝ) ≤ 1 ∧ (0 : ℝ) ≤ 0 ∧
    |update_pendulum_theta 0 1 0 0| ≤ (1 : ℝ) * Real.exp (-(0 : ℝ) * 0) :=
  ⟨by norm_num, le_refl 0, c8_envelope_amended 0 1 0 0 (by norm_num) (le_refl 0)⟩

/-- Appending one point and truncating keeps exactly the most recent points: the
result is the suffix of the appended buffer obtained by dropping the oldest
entries beyond the 150-point cap. -/
theorem append_truncate_eq_drop {A : Type} (points : List A) (p : A) :
    trail_truncate (VMobject.add_points_as_corners points [p]) =
      (points ++ [p]).drop (points.length + 1 - 150) := by
  unfold trail_truncate VMobject.add_points_as_corners
  by_cases h : 150 < (points ++ [p]).length
  · rw [if_pos h]
    simp only [List.length_append, List.length_cons, List.length_nil, Nat.zero_add]
  · rw [if_neg h]
    simp only [List.length_append, List.length_cons, List.length_nil] at h
    have h0 : points.length + 1 - 150 = 0 := by omega
    rw [h0, List.drop_zero]

/-- Appending one point and truncating preserves the 150-point cap. -/
theorem append_truncate_length_le {A : Type} (points : List A) (p : A)
    (h : points.length ≤ 150) :
    (trail_truncate (VMobject.add_points_as_corners points [p])).length ≤ 150 := by
  rw [append_truncate_eq_drop, List.length_drop]
  simp only [List.length_append, List.length_cons, List.length_nil]
  omega

/-- Claim C9: one invocation of the per-frame updater appends the new point to
each trail buffer and keeps at most 150 points, discarding exactly the oldest
ones: each resulting buffer is the suffix of the appended buffer consisting of
its most recent points, in their original order. -/
theorem c9_trail_cap {A : Type} (pathBuf phaseBuf : List A) (p q : A)
    (hpath : pathBuf.length ≤ 150) (hphase : phaseBuf.length ≤ 150) :
    (path_update pathBuf p).length ≤ 150 ∧
    path_update pathBuf p = (pathBuf ++ [p]).drop (pathBuf.length + 1 - 150) ∧
    (phase_trail_update phaseBuf q).length ≤ 150 ∧
    phase_trail_update phaseBuf q = (phaseBuf ++ [q]).drop (phaseBuf.length + 1 - 150) :=
  ⟨append_truncate_length_le pathBuf p hpath,
   append_truncate_eq_drop pathBuf p,
   append_truncate_length_le phaseBuf q hphase,
   append_truncate_eq_drop phaseBuf q⟩

/-- Witness for C9: a full 150-point path buffer and a one-point phase buffer. -/
theorem c9_witness :
    (List.range 150).length ≤ 150 ∧ ([0] : List ℕ).length ≤ 150 ∧
    ((path_update (List.range 150) 7).length ≤ 150 ∧
     path_update (List.range 150) 7 =
       (List.range 150 ++ [7]).drop ((List.range 150).length + 1 - 150) ∧
     (phase_trail_update [0] 3).length ≤ 150 ∧
     phase_trail_update [0] 3 = ([0] ++ [3]).drop (([0] : List ℕ).length + 1 - 150)) :=
  ⟨by simp, by simp, c9_trail_cap (List.range 150) [0] 7 3 (by simp) (by simp)⟩

/-- Claim C10: neither integrator mutates the caller's argument: from the entry
frames obtained by unpacking `xyz` into the local scalars, any number of
loop-body iterations of the scene4 integrator and of the scene6 variant
preserves the `xyz` field, since each body assigns only the local scalars and
the freshly allocated output list(s). -/
theorem c10_argument_unchanged {K : Type} [CommRing K] (sigma rho beta dt : K)
    (xyz : List K) (s : LorenzFrame K) (s6 : AdvancedFrame K)
    (h : lorenz_unpack xyz = some s) (h6 : adv_lorenz_unpack xyz = some s6)
    (n : ℕ) :
    ((lorenz_loop_body sigma rho beta dt)^[n] s).xyz = xyz ∧
    ((adv_lorenz_loop_body sigma rho beta dt)^[n] s6).xyz = xyz := by
  have hxyz : s.xyz = xyz := by
    rcases xyz with - | ⟨a, - | ⟨b, - | ⟨c, - | ⟨d, l⟩⟩⟩⟩ <;>
      simp only [lorenz_unpack, Option.some.injEq, reduceCtorEq] at h
    rw [← h]
  have hxyz6 : s6.xyz = xyz := by
    rcases xyz with - | ⟨a, - | ⟨b, - | ⟨c, - | ⟨d, l⟩⟩⟩⟩ <;>
      simp only [adv_lorenz_unpack, Option.some.injEq, reduceCtorEq] at h6
    rw [← h6]
  constructor
  · induction n with
    | zero => simpa using hxyz
    | succ n ih => rw [Function.iterate_succ_apply', lorenz_loop_body_xyz]; exact ih
  · induction n with
    | zero => simpa using hxyz6
    | succ n ih => rw [Function.iterate_succ_apply', adv_lorenz_loop_body_xyz]; exact ih

/-- Witness for C10 at the concrete argument `[1, 2, 3]` over the rationals. -/
theorem c10_witness :
    lorenz_unpack ([1, 2, 3] : List ℚ) =
      some { xyz := [1, 2, 3], x := 1, y := 2, z := 3, points := [] } ∧
    adv_lorenz_unpack ([1, 2, 3] : List ℚ) =
      some { xyz := [1, 2, 3], x := 1, y := 2, z := 3, points := [], derivatives := [] } ∧
    (((lorenz_loop_body (10 : ℚ) 28 (8/3) (1/100))^[3]
        { xyz := [1, 2, 3], x := 1, y := 2, z := 3, points := [] }).xyz = [1, 2, 3] ∧
      ((adv_lorenz_loop_body (10 : ℚ) 28 (8/3) (1/100))^[3]
        { xyz := [1, 2, 3], x := 1, y := 2, z := 3, points := [], derivatives := [] }).xyz =
          [1, 2, 3]) :=
  ⟨rfl, rfl,
    c10_argument_unchanged (10 : ℚ) 28 (8/3) (1/100) [1, 2, 3]
      { xyz := [1, 2, 3], x := 1, y := 2, z := 3, points := [] }
      { xyz := [1, 2, 3], x := 1, y := 2, z := 3, points := [], derivatives := [] }
      rfl rfl 3⟩
